import Mathlib

/-!
# Verification of the datetime parsing / disambiguation / validation subsystem

This file gives a shallow embedding, in Lean 4, of the Go datetime resolver of
this repository (`ParseDateTimeRobust`, `parseSlashFormat`, `parseRelativeDate`,
`nextWeekday`, `ValidateDateTime`, `FormatDateTimeForDisplay` and the
pre-compiled regexes `timeRegex`, `slashRegex`, `daysRegex`), together with
proofs of the specification claims about it.

Modelling conventions:

* Go `time.Time` is modelled by `GoTime`: an absolute instant (seconds since
  the Unix epoch, an unbounded `Int`) together with its `Loc` (location tag),
  exactly as Go stores an absolute time plus a `*time.Location`.
* Civil (wall-clock) fields are derived from the absolute instant through the
  location's UTC-offset function, as Go derives them through the timezone
  database.  The timezone database itself is an external dependency of the
  program (loaded with `time.LoadLocation("Europe/Berlin")`); it is modelled
  here by the current European Union daylight-saving rules for Berlin
  (UTC+1, switching to UTC+2 between 01:00 UTC of the last Sunday of March
  and 01:00 UTC of the last Sunday of October), which is what the real
  database contains for every year this scheduling system can accept.
* `time.Date` is modelled by `goDate`, reproducing Go's field normalization
  (seconds into minutes, minutes into hours, hours into days, months into
  years, day overflow by calendar arithmetic) followed by Go's wall-clock to
  absolute conversion (including Go's adjustment step for wall-clock times
  that fall into a daylight-saving gap).
* Calendar conversions between (year, month, day) triples and days since the
  epoch use standard civil-calendar algorithms over `Int` with `/` and `%`
  (Euclidean division; all divisors are positive literals, so `/` is floor
  division, matching both the reference algorithms and Go's internal
  normalization).
* Machine integers: the Go code uses `int` (64-bit) for all arithmetic here;
  the values involved (days, seconds, small component numbers) are far from
  overflow, and the embedding uses unbounded `Int`.
* Fallible Go functions returning `(T, error)` are embedded as sum types;
  `ParseDateTimeRobust`'s three-way outcome (value, `*AmbiguousDateError`,
  plain error) is the tagged union `ParseResult`.
* Wall-clock `time.Now()` inside `ValidateDateTime` is lifted to an explicit
  parameter `now`, the standard embedding of an ambient clock read.
* Go's `strings.ToLower` is modelled on ASCII letters (every input the
  resolver's keyword vocabulary can react to is ASCII).
-/

/-! ## Calendar core: days-from-civil and civil-from-days over `Int` -/

/-- Leap-year predicate of the proleptic Gregorian calendar (as used by Go's
`time` package). -/
def isLeap (y : Int) : Bool :=
  decide ((y % 4 = 0 ∧ y % 100 ≠ 0) ∨ y % 400 = 0)

/-- Number of days of month `m` (1..12) in year `y`, as in Go's `daysIn`. -/
def daysInMonth (y m : Int) : Int :=
  if m = 2 then (if isLeap y then 29 else 28)
  else if m = 4 ∨ m = 6 ∨ m = 9 ∨ m = 11 then 30
  else 31

/-- Days since 1970-01-01 of the civil date `(y, m, d)` (proleptic Gregorian;
`m` is expected in 1..12 while `d` may be any integer, matching how Go's
`time.Date` adds a possibly out-of-range day count to the first of the
month). -/
def daysFromCivil (y m d : Int) : Int :=
  let y' := if m ≤ 2 then y - 1 else y
  let era := y' / 400
  let yoe := y' - era * 400
  let mp := if m ≤ 2 then m + 9 else m - 3
  let doy := (153 * mp + 2) / 5 + d - 1
  let doe := yoe * 365 + yoe / 4 - yoe / 100 + doy
  era * 146097 + doe - 719468

/-- Civil date `(y, m, d)` of the day `z` (days since 1970-01-01), staged by
era (400 years), century, quadrennium and year so that each step is a single
Euclidean division. -/
def civilFromDays (z : Int) : Int × Int × Int :=
  let z' := z + 719468
  let era := z' / 146097
  let doe := z' - era * 146097
  let cc := min (doe / 36524) 3
  let doc := doe - 36524 * cc
  let qc := doc / 1461
  let dq := doc - 1461 * qc
  let yq := min (dq / 365) 3
  let yoe := 100 * cc + 4 * qc + yq
  let doy := dq - 365 * yq
  let mp := (5 * doy + 2) / 153
  let d := doy - (153 * mp + 2) / 5 + 1
  let m := if mp < 10 then mp + 3 else mp - 9
  (if m ≤ 2 then yoe + era * 400 + 1 else yoe + era * 400, m, d)

/-- Go weekday number (Sunday = 0 .. Saturday = 6) of the day `z` (days since
1970-01-01, which was a Thursday, weekday 4). -/
def weekdayOfDays (z : Int) : Int :=
  (z + 4) % 7

set_option maxHeartbeats 1600000 in
/-- `civilFromDays` always produces a valid civil date (month in 1..12, day
within the month's length), and `daysFromCivil` takes it back to the day
number it came from. -/
theorem civilFromDays_spec (z y m d : Int) (h : civilFromDays z = (y, m, d)) :
    1 ≤ m ∧ m ≤ 12 ∧ 1 ≤ d ∧ d ≤ daysInMonth y m ∧ daysFromCivil y m d = z := by
  simp only [civilFromDays, Prod.mk.injEq] at h
  set z' := z + 719468 with hz'
  set era := z' / 146097 with hera
  set doe := z' - era * 146097 with hdoe
  have h1 : 0 ≤ doe ∧ doe ≤ 146096 := by omega
  set cc := min (doe / 36524) 3 with hcc
  set doc := doe - 36524 * cc with hdoc
  have h2 : 0 ≤ cc ∧ cc ≤ 3 ∧ 0 ≤ doc ∧ doc ≤ 36524 ∧ (doc = 36524 → cc = 3) := by
    rcases le_or_lt (doe / 36524) 3 with hx | hx
    · rw [min_eq_left hx] at hcc; omega
    · rw [min_eq_right hx.le] at hcc; omega
  set qc := doc / 1461 with hqc
  set dq := doc - 1461 * qc with hdq
  have h3 : 0 ≤ qc ∧ qc ≤ 24 ∧ 0 ≤ dq ∧ dq ≤ 1460 ∧ (qc = 24 → cc = 3 ∨ dq ≤ 1459) := by
    omega
  set yq := min (dq / 365) 3 with hyq
  set doy := dq - 365 * yq with hdoy
  have h4 : 0 ≤ yq ∧ yq ≤ 3 ∧ 0 ≤ doy ∧ doy ≤ 365 ∧ (doy = 365 → yq = 3 ∧ dq = 1460) := by
    rcases le_or_lt (dq / 365) 3 with hx | hx
    · rw [min_eq_left hx] at hyq; omega
    · rw [min_eq_right hx.le] at hyq; omega
  set yoe := 100 * cc + 4 * qc + yq with hyoe
  have h5 : 0 ≤ yoe ∧ yoe ≤ 399 := by omega
  have h6 : doy = 365 → ((yoe + 1) % 4 = 0 ∧ (yoe + 1) % 100 ≠ 0) ∨ yoe = 399 := by
    intro hx
    have := h4.2.2.2.2 hx
    omega
  set mp := (5 * doy + 2) / 153 with hmp
  have h7 : 0 ≤ mp ∧ mp ≤ 11 := by omega
  have hi : yoe / 4 = 25 * cc + qc := by omega
  have hj : yoe / 100 = cc := by omega
  obtain ⟨hy, hm, hd⟩ := h
  split at hm
  case isTrue hmp10 =>
    subst hm
    have h9 : ¬ (mp + 3 ≤ 2) := by omega
    rw [if_pos hmp10, if_neg h9] at hy
    refine ⟨by omega, by omega, by omega, ?_, ?_⟩
    · simp only [daysInMonth, isLeap, decide_eq_true_eq]
      split_ifs <;> omega
    · simp only [daysFromCivil]
      rw [if_neg h9, if_neg h9]
      have e1 : (yoe + era * 400) / 400 = era := by omega
      rw [← hy, e1]
      have e2 : yoe + era * 400 - era * 400 = yoe := by ring
      rw [e2, hi, hj]
      omega
  case isFalse hmp10 =>
    subst hm
    have h9 : mp - 9 ≤ 2 := by omega
    rw [if_neg hmp10, if_pos h9] at hy
    refine ⟨by omega, by omega, by omega, ?_, ?_⟩
    · simp only [daysInMonth, isLeap, decide_eq_true_eq]
      split_ifs <;> omega
    · simp only [daysFromCivil]
      rw [if_pos h9, if_pos h9]
      have e1 : (yoe + era * 400 + 1 - 1) / 400 = era := by omega
      rw [← hy, e1]
      have e2 : yoe + era * 400 + 1 - 1 - era * 400 = yoe := by ring
      rw [e2, hi, hj]
      omega

/-- `daysFromCivil` is linear in the day component. -/
theorem daysFromCivil_add_day (y m d k : Int) :
    daysFromCivil y m (d + k) = daysFromCivil y m d + k := by
  simp only [daysFromCivil]
  split_ifs <;> ring

/-- Moving the year two ahead moves the day number ahead by at least 729
days (in fact 730 or 731; the weak bound is all that is needed). -/
theorem daysFromCivil_two_years (y m : Int) :
    daysFromCivil y m 1 + 729 ≤ daysFromCivil (y + 2) m 1 := by
  simp only [daysFromCivil]
  split_ifs with hc
  · have e1 : (if m ≤ 2 then y + 2 - 1 else y + 2) = (y - 1) + 2 := by
      rw [if_pos hc]; ring
    omega
  · have e1 : (if m ≤ 2 then y + 2 - 1 else y + 2) = y + 2 := by
      rw [if_neg hc]
    omega

/-! ## Locations and the modelled timezone database

`Loc` models `*time.Location`: the Berlin zone loaded by the program, plain
UTC, and the fixed-offset zones produced by parsing an RFC3339 offset.  The
UTC-offset function of the Berlin zone models the tzdata entry for
`Europe/Berlin` (current EU rules, valid for every year relevant to the
program: UTC+1, and UTC+2 between 01:00 UTC of the last Sunday of March and
01:00 UTC of the last Sunday of October). -/

/-- A Go `*time.Location`, as the resolver can observe it. -/
inductive Loc
  | berlin
  | utc
  | fixedOffset (offMin : Int)
deriving DecidableEq, Repr

/-- Day number (since the epoch) of the last Sunday of month `m` of year
`y`. -/
def lastSundayDays (y m : Int) : Int :=
  let z := daysFromCivil y m (daysInMonth y m)
  z - (z + 4) % 7

/-- First instant (seconds since the epoch) of summer time in Berlin in year
`y`: 01:00 UTC of the last Sunday of March. -/
def berlinDstStart (y : Int) : Int :=
  lastSundayDays y 3 * 86400 + 3600

/-- First instant (seconds since the epoch) after summer time in Berlin in
year `y`: 01:00 UTC of the last Sunday of October. -/
def berlinDstEnd (y : Int) : Int :=
  lastSundayDays y 10 * 86400 + 3600

/-- UTC offset, in minutes, of the Berlin zone at the absolute instant `u`
(seconds since the epoch). -/
def berlinUtcOffMin (u : Int) : Int :=
  let y := (civilFromDays (u / 86400)).1
  if berlinDstStart y ≤ u ∧ u < berlinDstEnd y then 120 else 60

/-- UTC offset, in minutes, of a location at absolute instant `u`. -/
def locUtcOffMin : Loc → Int → Int
  | Loc.berlin, u => berlinUtcOffMin u
  | Loc.utc, _ => 0
  | Loc.fixedOffset o, _ => o

theorem berlinUtcOffMin_mem (u : Int) :
    berlinUtcOffMin u = 60 ∨ berlinUtcOffMin u = 120 := by
  simp only [berlinUtcOffMin]
  split <;> simp

/-! ## `GoTime`: Go's `time.Time` -/

/-- Go `time.Time`: an absolute instant (seconds since the Unix epoch) plus
the location used to render civil fields. -/
structure GoTime where
  u : Int
  loc : Loc
deriving DecidableEq, Repr

/-- `time.Time.In`: same instant, different rendering location. -/
def GoTime.In (t : GoTime) (loc : Loc) : GoTime :=
  { u := t.u, loc := loc }

/-- The civil (wall-clock) fields of a `time.Time`, as Go's `Date`, `Clock`
etc. return them. -/
structure Civil where
  year : Int
  month : Int
  day : Int
  hour : Int
  minute : Int
  second : Int
deriving DecidableEq, Repr

/-- Civil seconds (local-clock seconds since the local epoch) of an
instant. -/
def civilSec (t : GoTime) : Int :=
  t.u + 60 * locUtcOffMin t.loc t.u

/-- Civil day number of an instant (what Go's `absDate` computes). -/
def civilDays (t : GoTime) : Int :=
  civilSec t / 86400

/-- All civil fields of an instant. -/
def civilOf (t : GoTime) : Civil :=
  let cs := civilSec t
  let sod := cs % 86400
  let ymd := civilFromDays (cs / 86400)
  { year := ymd.1, month := ymd.2.1, day := ymd.2.2,
    hour := sod / 3600, minute := sod % 3600 / 60, second := sod % 60 }

/-- `time.Time.Weekday` (Sunday = 0). -/
def goWeekday (t : GoTime) : Int :=
  weekdayOfDays (civilDays t)

/-- Go's conversion of a wall-clock reading `cs` (civil seconds) in a
location to the absolute instant: look the offset up at the pseudo-instant
`cs`, subtract it, and if the offset at the corrected instant disagrees
(invalid local times at a DST transition) redo the lookup there --- the
adjustment step of Go's `time.Date`. -/
def wallToU (loc : Loc) (cs : Int) : Int :=
  match loc with
  | Loc.utc => cs
  | Loc.fixedOffset o => cs - o * 60
  | Loc.berlin =>
    let o1 := berlinUtcOffMin cs
    let u1 := cs - o1 * 60
    if berlinUtcOffMin u1 = o1 then u1 else cs - berlinUtcOffMin u1 * 60

theorem wallToU_berlin_bounds (cs : Int) :
    cs - 7200 ≤ wallToU Loc.berlin cs ∧ wallToU Loc.berlin cs ≤ cs - 3600 := by
  simp only [wallToU]
  rcases berlinUtcOffMin_mem cs with h | h <;> rw [h]
  · rcases berlinUtcOffMin_mem (cs - 60 * 60) with h2 | h2 <;> rw [h2] <;>
      split_ifs <;> omega
  · rcases berlinUtcOffMin_mem (cs - 120 * 60) with h2 | h2 <;> rw [h2] <;>
      split_ifs <;> omega

/-- Go `time.Date(y, mo, d, h, mi, s, 0, loc)`: normalize the fields
(seconds into minutes, minutes into hours, hours into days, months into
years), resolve the civil date by calendar arithmetic, and convert the
wall-clock reading to an absolute instant in `loc`. -/
def goDate (y mo d h mi s : Int) (loc : Loc) : GoTime :=
  let mi1 := mi + s / 60
  let s1 := s % 60
  let h1 := h + mi1 / 60
  let mi2 := mi1 % 60
  let d1 := d + h1 / 24
  let h2 := h1 % 24
  let m0 := mo - 1
  let y1 := y + m0 / 12
  let m1 := m0 % 12 + 1
  let z := daysFromCivil y1 m1 1 + (d1 - 1)
  let cs := z * 86400 + h2 * 3600 + mi2 * 60 + s1
  { u := wallToU loc cs, loc := loc }

/-- `time.Time.AddDate`, defined in Go as
`Date(y+years, m+months, d+days, hh, mm, ss, ns, loc)`. -/
def goAddDate (t : GoTime) (years months days : Int) : GoTime :=
  let c := civilOf t
  goDate (c.year + years) (c.month + months) (c.day + days) c.hour c.minute c.second t.loc

/-! ## String utilities (Go `strings` / `fmt` pieces used by the resolver) -/

/-- Unicode White_Space (the set trimmed by Go's `strings.TrimSpace`). -/
def isSpaceChar (c : Char) : Bool :=
  let n := c.toNat
  decide ((9 ≤ n ∧ n ≤ 13) ∨ n = 32 ∨ n = 133 ∨ n = 160 ∨ n = 5760 ∨
    (8192 ≤ n ∧ n ≤ 8202) ∨ n = 8232 ∨ n = 8233 ∨ n = 8239 ∨ n = 8287 ∨ n = 12288)

/-- `strings.TrimSpace`. -/
def goTrimSpace (s : List Char) : List Char :=
  ((s.dropWhile isSpaceChar).reverse.dropWhile isSpaceChar).reverse

/-- `strings.ToLower` on the ASCII range (see the file header). -/
def goToLowerChar (c : Char) : Char :=
  if 'A' ≤ c ∧ c ≤ 'Z' then Char.ofNat (c.toNat + 32) else c

def goToLower (s : List Char) : List Char :=
  s.map goToLowerChar

/-- `strings.Contains s sub`. -/
def containsSub : List Char → List Char → Bool
  | [], sub => sub.isEmpty
  | c :: rest, sub => sub.isPrefixOf (c :: rest) || containsSub rest sub

/-- Digit value of an ASCII digit character. -/
def digitVal (c : Char) : Int :=
  (c.toNat : Int) - 48

/-- Longest leading digit run and the remainder. -/
def takeDigits : List Char → List Char × List Char
  | [] => ([], [])
  | c :: rest =>
    if c.isDigit then
      let p := takeDigits rest
      (c :: p.1, p.2)
    else ([], c :: rest)

/-- Decimal value of a digit run (what `fmt.Sscanf("%d")` reads). -/
def digitsVal (l : List Char) : Int :=
  l.foldl (fun a c => a * 10 + digitVal c) 0

/-- Decimal rendering of an integer (`fmt`'s `%d`). -/
def intStr (n : Int) : String :=
  toString n

/-- ASCII digit character of `n` in 0..9. -/
def digitChar (n : Int) : Char :=
  Char.ofNat (48 + n.toNat)

/-- `%02d` on values in 0..99: two zero-padded digits. -/
def pad2 (n : Int) : String :=
  String.mk [digitChar (n / 10), digitChar (n % 10)]

/-- Four-digit zero-padded rendering of values in 0..9999, as Go's `2006`
layout verb renders such years. -/
def pad4 (n : Int) : String :=
  String.mk [digitChar (n / 1000), digitChar (n / 100 % 10),
    digitChar (n / 10 % 10), digitChar (n % 10)]

def weekdayName (w : Int) : String :=
  ["Sunday", "Monday", "Tuesday", "Wednesday", "Thursday", "Friday",
    "Saturday"].getD w.toNat "Sunday"

def monthName (m : Int) : String :=
  ["January", "February", "March", "April", "May", "June", "July", "August",
    "September", "October", "November", "December"].getD (m - 1).toNat "January"

/-! ## The pre-compiled regexes, as matching functions

`timeRegex  = (\d{1,2}):(\d{2})`      (unanchored, leftmost-first search)
`slashRegex = ^(\d{1,2})/(\d{1,2})(?:/(\d{2,4}))?(?:\s+(\d{1,2}):(\d{2}))?$`
`daysRegex  = in (\d+) days?`         (unanchored, leftmost-first search)

Each function implements exactly the language of its regex, including the
greedy-with-backtracking behaviour of the bounded repetitions. -/

/-- Try `timeRegex` anchored at the head of `l` (two-digit hour preferred,
then one-digit, as the greedy `{1,2}` matches). -/
def timeMatchAt (l : List Char) : Option (Int × Int) :=
  match l with
  | c0 :: c1 :: c2 :: c3 :: c4 :: _ =>
    if c0.isDigit ∧ c1.isDigit ∧ c2 = ':' ∧ c3.isDigit ∧ c4.isDigit then
      some (10 * digitVal c0 + digitVal c1, 10 * digitVal c3 + digitVal c4)
    else if c0.isDigit ∧ c1 = ':' ∧ c2.isDigit ∧ c3.isDigit then
      some (digitVal c0, 10 * digitVal c2 + digitVal c3)
    else none
  | [c0, c1, c2, c3] =>
    if c0.isDigit ∧ c1 = ':' ∧ c2.isDigit ∧ c3.isDigit then
      some (digitVal c0, 10 * digitVal c2 + digitVal c3)
    else none
  | _ => none

/-- `timeRegex.FindStringSubmatch`: the leftmost match, as hour and minute
numbers. -/
def timeSearch : List Char → Option (Int × Int)
  | [] => none
  | c :: rest =>
    match timeMatchAt (c :: rest) with
    | some r => some r
    | none => timeSearch rest

/-- Try `daysRegex` anchored at the head of `l`. -/
def daysMatchAt (l : List Char) : Option Int :=
  match l with
  | 'i' :: 'n' :: ' ' :: rest =>
    let p := takeDigits rest
    if p.1.length = 0 then none
    else
      match p.2 with
      | ' ' :: 'd' :: 'a' :: 'y' :: _ => some (digitsVal p.1)
      | _ => none
  | _ => none

/-- `daysRegex.FindStringSubmatch`: the leftmost match's day count (also
`MatchString`: a match exists iff this is not `none`). -/
def daysSearch : List Char → Option Int
  | [] => none
  | c :: rest =>
    match daysMatchAt (c :: rest) with
    | some r => some r
    | none => daysSearch rest

/-- The character class `\s` of Go's regexp (`[\t\n\f\r ]`). -/
def isRegexSpace (c : Char) : Bool :=
  let n := c.toNat
  decide (n = 9 ∨ n = 10 ∨ n = 12 ∨ n = 13 ∨ n = 32)

/-- `slashRegex.FindStringSubmatch`: the two numbers, the optional year and
the optional `HH:MM`, or `none` when the anchored regex does not match.
A digit run longer than the bounded repetition allows can never match (the
character after the backtracked run would still be a digit), so each run
must have exactly the bounded length. -/
def slashMatch (s : List Char) : Option (Int × Int × Option Int × Option (Int × Int)) :=
  let p1 := takeDigits s
  if p1.1.length = 0 ∨ p1.1.length > 2 then none
  else
    match p1.2 with
    | '/' :: s2 =>
      let p2 := takeDigits s2
      if p2.1.length = 0 ∨ p2.1.length > 2 then none
      else
        let first := digitsVal p1.1
        let second := digitsVal p2.1
        match p2.2 with
        | [] => some (first, second, none, none)
        | '/' :: s3 =>
          let p3 := takeDigits s3
          if p3.1.length < 2 ∨ p3.1.length > 4 then none
          else
            match p3.2 with
            | [] => some (first, second, some (digitsVal p3.1), none)
            | c :: rest =>
              if isRegexSpace c then
                let s5 := (c :: rest).dropWhile isRegexSpace
                let p4 := takeDigits s5
                if p4.1.length = 0 ∨ p4.1.length > 2 then none
                else
                  match p4.2 with
                  | ':' :: a :: b :: tail =>
                    if a.isDigit ∧ b.isDigit ∧ tail = [] then
                      some (first, second, some (digitsVal p3.1),
                        some (digitsVal p4.1, digitsVal [a, b]))
                    else none
                  | _ => none
              else none
        | c :: rest =>
          if isRegexSpace c then
            let s5 := (c :: rest).dropWhile isRegexSpace
            let p4 := takeDigits s5
            if p4.1.length = 0 ∨ p4.1.length > 2 then none
            else
              match p4.2 with
              | ':' :: a :: b :: tail =>
                if a.isDigit ∧ b.isDigit ∧ tail = [] then
                  some (first, second, none, some (digitsVal p4.1, digitsVal [a, b]))
                else none
              | _ => none
          else none
    | _ => none

/-! ## Layout-based parsers (`time.Parse` / `time.ParseInLocation`)

Helpers for fixed-width numeric fields (Go's zero-padded layout verbs parse
exactly two digits; `2006` exactly four; the bare hour verb `15` parses one
or two digits, preferring two). -/

def parse2d : List Char → Option (Int × List Char)
  | a :: b :: r => if a.isDigit ∧ b.isDigit then some (10 * digitVal a + digitVal b, r) else none
  | _ => none

def parse4d : List Char → Option (Int × List Char)
  | a :: b :: c :: d :: r =>
    if a.isDigit ∧ b.isDigit ∧ c.isDigit ∧ d.isDigit then
      some (1000 * digitVal a + 100 * digitVal b + 10 * digitVal c + digitVal d, r)
    else none
  | _ => none

def parseHour12 : List Char → Option (Int × List Char)
  | a :: b :: r =>
    if a.isDigit then
      if b.isDigit then some (10 * digitVal a + digitVal b, r)
      else some (digitVal a, b :: r)
    else none
  | [a] => if a.isDigit then some (digitVal a, []) else none
  | [] => none

/-- Optional fractional seconds consumed by the strict RFC3339 parser: a dot
followed by at least one digit (the value is discarded; sub-second precision
is below the program's observation). -/
def dropFracStrict (s : List Char) : List Char :=
  match s with
  | '.' :: c :: r => if c.isDigit then (c :: r).dropWhile Char.isDigit else s
  | _ => s

/-- Optional fractional seconds consumed by the generic layout parser right
after a seconds field: a dot or comma followed by at least one digit. -/
def dropFracGen (s : List Char) : List Char :=
  match s with
  | '.' :: c :: r => if c.isDigit then (c :: r).dropWhile Char.isDigit else s
  | ',' :: c :: r => if c.isDigit then (c :: r).dropWhile Char.isDigit else s
  | _ => s

/-- Validity checks the layout parsers apply to parsed fields (Go rejects a
month, day, hour, minute or second outside its calendar range). -/
def fieldsValid (y mo d h mi s : Int) : Bool :=
  decide (1 ≤ mo ∧ mo ≤ 12 ∧ 1 ≤ d ∧ d ≤ daysInMonth y mo ∧
    0 ≤ h ∧ h ≤ 23 ∧ 0 ≤ mi ∧ mi ≤ 59 ∧ 0 ≤ s ∧ s ≤ 59)

/-- The zone suffix of a strict RFC3339 timestamp: `Z`/`z` (offset zero) or
`±hh:mm` with `hh` at most 23 and `mm` at most 59, ending the input.
Returns the offset in minutes. -/
def parseOffsetTail (s : List Char) : Option Int :=
  match s with
  | ['Z'] => some 0
  | ['z'] => some 0
  | sign :: rest =>
    if sign = '+' ∨ sign = '-' then
      match parse2d rest with
      | none => none
      | some (oh, ra) =>
        match ra with
        | ':' :: rb =>
          match parse2d rb with
          | none => none
          | some (om, rc) =>
            if rc = [] ∧ oh ≤ 23 ∧ om ≤ 59 then
              some ((if sign = '-' then -1 else 1) * (oh * 60 + om))
            else none
        | _ => none
    else none
  | [] => none

/-- Strict RFC3339 parser (Go's `time.Parse` special-cases the `RFC3339` and
`RFC3339Nano` layout strings and requires the canonical form
`yyyy-mm-ddThh:mm:ss[.f...](Z|±hh:mm)`).  Returns the absolute instant with
the parsed zone (UTC for a zero offset, a fixed zone otherwise). -/
def parseRFC3339 (s : List Char) : Option GoTime :=
  match parse4d s with
  | none => none
  | some (y, r1) =>
    match r1 with
    | [] => none
    | c1 :: r2 =>
      if c1 = '-' then
        match parse2d r2 with
        | none => none
        | some (mo, r3) =>
          match r3 with
          | [] => none
          | c2 :: r4 =>
            if c2 = '-' then
              match parse2d r4 with
              | none => none
              | some (d, r5) =>
                match r5 with
                | [] => none
                | c3 :: r6 =>
                  if c3 = 'T' then
                    match parse2d r6 with
                    | none => none
                    | some (h, r7) =>
                      match r7 with
                      | [] => none
                      | c4 :: r8 =>
                        if c4 = ':' then
                          match parse2d r8 with
                          | none => none
                          | some (mi, r9) =>
                            match r9 with
                            | [] => none
                            | c5 :: r10 =>
                              if c5 = ':' then
                                match parse2d r10 with
                                | none => none
                                | some (sec, r11) =>
                                  if fieldsValid y mo d h mi sec then
                                    match parseOffsetTail (dropFracStrict r11) with
                                    | none => none
                                    | some off =>
                                      if off = 0 then
                                        some { u := daysFromCivil y mo d * 86400 +
                                                 h * 3600 + mi * 60 + sec,
                                               loc := Loc.utc }
                                      else
                                        some { u := daysFromCivil y mo d * 86400 +
                                                 h * 3600 + mi * 60 + sec - off * 60,
                                               loc := Loc.fixedOffset off }
                                  else none
                              else none
                        else none
                  else none
            else none
      else none

/-- The `FormatRFC3339Nano` layout string equals Go's `time.RFC3339Nano`;
`time.Parse` treats it with the same strict RFC3339 parser (the fractional
part being optional in both), so this step of the matcher chain is the same
function. -/
def parseRFC3339Nano : List Char → Option GoTime :=
  parseRFC3339

/-- Generic layout parse of the local (no-offset) date-time layouts.  The
shape argument selects the separator between date and time, whether a
seconds field is present (with optional fraction after it), and a trailing
literal `Z`.  Returns the civil fields; `ParseInLocation` then interprets
them in the Berlin zone. -/
def parseLocalCore (sep : Char) (withSec : Bool) (withZ : Bool)
    (s : List Char) : Option Civil :=
  match parse4d s with
  | none => none
  | some (y, r1) =>
    match r1 with
    | '-' :: r2 =>
      match parse2d r2 with
      | none => none
      | some (mo, r3) =>
        match r3 with
        | '-' :: r4 =>
          match parse2d r4 with
          | none => none
          | some (d, r5) =>
            match r5 with
            | c :: r6 =>
              if c = sep then
                match parseHour12 r6 with
                | none => none
                | some (h, r7) =>
                  match r7 with
                  | ':' :: r8 =>
                    match parse2d r8 with
                    | none => none
                    | some (mi, r9) =>
                      if withSec then
                        match r9 with
                        | ':' :: r10 =>
                          match parse2d r10 with
                          | none => none
                          | some (sec, r11) =>
                            let r12 := dropFracGen r11
                            if (if withZ then r12 = ['Z'] else r12 = []) ∧
                                fieldsValid y mo d h mi sec then
                              some { year := y, month := mo, day := d,
                                     hour := h, minute := mi, second := sec }
                            else none
                        | _ => none
                      else
                        if r9 = [] ∧ fieldsValid y mo d h mi 0 then
                          some { year := y, month := mo, day := d,
                                 hour := h, minute := mi, second := 0 }
                        else none
                  | _ => none
              else none
            | [] => none
        | _ => none
    | _ => none

/-- Layout `2006-01-02T15:04:05Z` (a literal `Z`, parsed as local time). -/
def parseISO8601WithTZ : List Char → Option Civil :=
  parseLocalCore 'T' true true

/-- Layout `2006-01-02T15:04:05`. -/
def parseISO8601 : List Char → Option Civil :=
  parseLocalCore 'T' true false

/-- Layout `2006-01-02T15:04`. -/
def parseISO8601Short : List Char → Option Civil :=
  parseLocalCore 'T' false false

/-- Layout `2006-01-02 15:04:05`. -/
def parseDateTimeSpace : List Char → Option Civil :=
  parseLocalCore ' ' true false

/-- Layout `2006-01-02 15:04`. -/
def parseDateTimeSpaceShort : List Char → Option Civil :=
  parseLocalCore ' ' false false

/-- Layout `2006-01-02` (date only). -/
def parseDateOnly (s : List Char) : Option (Int × Int × Int) :=
  match parse4d s with
  | none => none
  | some (y, r1) =>
    match r1 with
    | '-' :: r2 =>
      match parse2d r2 with
      | none => none
      | some (mo, r3) =>
        match r3 with
        | '-' :: r4 =>
          match parse2d r4 with
          | none => none
          | some (d, r5) =>
            if r5 = [] ∧ fieldsValid y mo d 0 0 0 then some (y, mo, d) else none
        | _ => none
    | _ => none

/-- Layout `02.01.2006 15:04` (German date-time, day first). -/
def parseGermanDateTime (s : List Char) : Option Civil :=
  match parse2d s with
  | none => none
  | some (d, r1) =>
    match r1 with
    | '.' :: r2 =>
      match parse2d r2 with
      | none => none
      | some (mo, r3) =>
        match r3 with
        | '.' :: r4 =>
          match parse4d r4 with
          | none => none
          | some (y, r5) =>
            match r5 with
            | ' ' :: r6 =>
              match parseHour12 r6 with
              | none => none
              | some (h, r7) =>
                match r7 with
                | ':' :: r8 =>
                  match parse2d r8 with
                  | none => none
                  | some (mi, r9) =>
                    if r9 = [] ∧ fieldsValid y mo d h mi 0 then
                      some { year := y, month := mo, day := d,
                             hour := h, minute := mi, second := 0 }
                    else none
                | _ => none
            | _ => none
        | _ => none
    | _ => none

/-- Layout `02.01.2006` (German date, day first). -/
def parseGermanDate (s : List Char) : Option (Int × Int × Int) :=
  match parse2d s with
  | none => none
  | some (d, r1) =>
    match r1 with
    | '.' :: r2 =>
      match parse2d r2 with
      | none => none
      | some (mo, r3) =>
        match r3 with
        | '.' :: r4 =>
          match parse4d r4 with
          | none => none
          | some (y, r5) =>
            if r5 = [] ∧ fieldsValid y mo d 0 0 0 then some (y, mo, d) else none
        | _ => none
    | _ => none

/-! ## Formatting (`time.Time.Format`) -/

/-- Layout `Monday, January 2, 2006 at 15:04` (used in the display text of
ambiguity options). -/
def formatLong (t : GoTime) : String :=
  let c := civilOf t
  weekdayName (goWeekday t) ++ ", " ++ monthName c.month ++ " " ++
    intStr c.day ++ ", " ++ pad4 c.year ++ " at " ++ pad2 c.hour ++ ":" ++
    pad2 c.minute

/-- The numeric zone suffix of the RFC3339 layout (`Z` for a zero
offset). -/
def offsetSuffix (off : Int) : String :=
  if off = 0 then "Z"
  else (if off < 0 then "-" else "+") ++ pad2 (|off| / 60) ++ ":" ++ pad2 (|off| % 60)

/-- Layout `time.RFC3339` (used for the machine-readable option dates). -/
def formatRFC3339 (t : GoTime) : String :=
  let c := civilOf t
  let off := locUtcOffMin t.loc t.u
  pad4 c.year ++ "-" ++ pad2 c.month ++ "-" ++ pad2 c.day ++ "T" ++
    pad2 c.hour ++ ":" ++ pad2 c.minute ++ ":" ++ pad2 c.second ++
    offsetSuffix off

/-- Layout `2006-01-02 15:04` (used inside validation error messages). -/
def formatYMDHM (t : GoTime) : String :=
  let c := civilOf t
  pad4 c.year ++ "-" ++ pad2 c.month ++ "-" ++ pad2 c.day ++ " " ++
    pad2 c.hour ++ ":" ++ pad2 c.minute

/-- Zone abbreviation (`MST` layout verb) for the Berlin zone. -/
def berlinAbbrev (u : Int) : String :=
  if berlinUtcOffMin u = 120 then "CEST" else "CET"

/-- `FormatDateTimeForDisplay`: convert to Berlin and render
`Monday, January 2, 2006 at 15:04 MST`. -/
def FormatDateTimeForDisplay (t : GoTime) : String :=
  let localTime := t.In Loc.berlin
  formatLong localTime ++ " " ++ berlinAbbrev localTime.u

/-! ## The resolver's result types -/

/-- A possible interpretation of an ambiguous date. -/
structure DateOption where
  Key : String
  DisplayText : String
  ISODate : String
  DateTime : GoTime
deriving DecidableEq, Repr

/-- `AmbiguousDateError`: a date with multiple valid interpretations. -/
structure AmbiguousDateError where
  OriginalInput : String
  Options : List DateOption
deriving DecidableEq, Repr

/-- The three-way outcome of `ParseDateTimeRobust` (Go returns
`(time.Time, error)` where the error is either `*AmbiguousDateError`,
detected by a type assertion, or a plain message). -/
inductive ParseResult
  | ok (t : GoTime)
  | ambiguous (e : AmbiguousDateError)
  | err (msg : String)
deriving DecidableEq, Repr

/-! ## `parseSlashFormat` -/

/-- Build one `DateOption` of an ambiguous slash date, as the Go literal
does. -/
def mkSlashOption (key conv : String) (t : GoTime) : DateOption :=
  { Key := key,
    DisplayText := conv ++ formatLong t,
    ISODate := formatRFC3339 t,
    DateTime := t }

/-- Year resolution of the slash format: default to the reference year when
the input has no year group; promote two-digit years by adding 2000. -/
def slashYear (oy : Option Int) (ref : GoTime) : Int :=
  match oy with
  | none => (civilOf ref).year
  | some yv => if yv < 100 then yv + 2000 else yv

/-- Hour resolution of the slash format: default 9 when no time group. -/
def slashHour (ot : Option (Int × Int)) : Int :=
  match ot with
  | none => 9
  | some hm => hm.1

/-- Minute resolution of the slash format: default 0 when no time group. -/
def slashMinute (ot : Option (Int × Int)) : Int :=
  match ot with
  | none => 0
  | some hm => hm.2

/-- `parseSlashFormat`: handles `MM/DD` vs `DD/MM` ambiguity.  Mirrors the
Go function line by line: regex match, year defaulting (reference year, and
`+2000` for two-digit years), time defaulting (`09:00`), time range
validation, then the four-way classification. -/
def parseSlashFormat (input : String) (tz : Loc) (ref : GoTime) : ParseResult :=
  match slashMatch input.data with
  | none => ParseResult.err "not a slash format"
  | some (first, second, oy, ot) =>
    let year := slashYear oy ref
    let hour := slashHour ot
    let minute := slashMinute ot
    if hour < 0 ∨ hour > 23 ∨ minute < 0 ∨ minute > 59 then
      ParseResult.err ("invalid time component: " ++ pad2 hour ++ ":" ++ pad2 minute)
    else if (1 ≤ first ∧ first ≤ 12) ∧ (1 ≤ second ∧ second ≤ 12) ∧
        (1 ≤ first ∧ first ≤ 31) ∧ (1 ≤ second ∧ second ≤ 31) ∧ first ≠ second then
      let optionMM := goDate year first second hour minute 0 tz
      let optionDD := goDate year second first hour minute 0 tz
      ParseResult.ambiguous
        { OriginalInput := input,
          Options := [mkSlashOption "A" "MM/DD format: " optionMM,
                      mkSlashOption "B" "DD/MM format: " optionDD] }
    else if (1 ≤ second ∧ second ≤ 12) ∧ (1 ≤ first ∧ first ≤ 31) then
      ParseResult.ok (goDate year second first hour minute 0 tz)
    else if (1 ≤ first ∧ first ≤ 12) ∧ (1 ≤ second ∧ second ≤ 31) then
      ParseResult.ok (goDate year first second hour minute 0 tz)
    else
      ParseResult.err ("invalid date components: " ++ intStr first ++ "/" ++ intStr second)

/-! ## `parseRelativeDate` and `nextWeekday` -/

/-- The day offset of `nextWeekday`: the difference of weekday numbers,
pushed a week out when it is zero or negative. -/
def daysUntilNext (current target : Int) : Int :=
  if target - current ≤ 0 then target - current + 7 else target - current

/-- `nextWeekday`: the next occurrence of `targetDay` strictly after the
reference day. -/
def nextWeekday (ref : GoTime) (targetDay hour minute : Int) (tz : Loc) : GoTime :=
  goDate (civilOf ref).year (civilOf ref).month
    ((civilOf ref).day + daysUntilNext (goWeekday ref) targetDay) hour minute 0 tz

/-- Time extraction of the relative sub-parser: an explicit `HH:MM` match
wins (with no range check); otherwise a day-part keyword supplies a default
hour; otherwise 09:00. -/
def relTime (low : List Char) : Int × Int :=
  match timeSearch low with
  | some r => r
  | none =>
    if containsSub low "morning".data then (9, 0)
    else if containsSub low "noon".data || containsSub low "midday".data then (12, 0)
    else if containsSub low "afternoon".data then (14, 0)
    else if containsSub low "evening".data then (18, 0)
    else (9, 0)

/-- `parseRelativeDate`, on the lower-cased trimmed input `low` and the
zone-adjusted reference `now`: the relative-day phrases are checked in the
order of the Go `switch` (`today`, `tomorrow`, `next week`, the
`in N days` regex, then the seven `next <weekday>` phrases).  Written
without local bindings so that each branch is syntactically explicit. -/
def parseRelativeCore (low : List Char) (now : GoTime) (tz : Loc) : Except String GoTime :=
  if containsSub low "today".data then
    Except.ok (goDate (civilOf now).year (civilOf now).month (civilOf now).day
      (relTime low).1 (relTime low).2 0 tz)
  else if containsSub low "tomorrow".data then
    Except.ok (goDate (civilOf now).year (civilOf now).month ((civilOf now).day + 1)
      (relTime low).1 (relTime low).2 0 tz)
  else if containsSub low "next week".data then
    Except.ok (goDate (civilOf now).year (civilOf now).month ((civilOf now).day + 7)
      (relTime low).1 (relTime low).2 0 tz)
  else if (daysSearch low).isSome then
    Except.ok (goDate (civilOf now).year (civilOf now).month
      ((civilOf now).day + (daysSearch low).getD 0) (relTime low).1 (relTime low).2 0 tz)
  else if containsSub low "next monday".data then
    Except.ok (nextWeekday now 1 (relTime low).1 (relTime low).2 tz)
  else if containsSub low "next tuesday".data then
    Except.ok (nextWeekday now 2 (relTime low).1 (relTime low).2 tz)
  else if containsSub low "next wednesday".data then
    Except.ok (nextWeekday now 3 (relTime low).1 (relTime low).2 tz)
  else if containsSub low "next thursday".data then
    Except.ok (nextWeekday now 4 (relTime low).1 (relTime low).2 tz)
  else if containsSub low "next friday".data then
    Except.ok (nextWeekday now 5 (relTime low).1 (relTime low).2 tz)
  else if containsSub low "next saturday".data then
    Except.ok (nextWeekday now 6 (relTime low).1 (relTime low).2 tz)
  else if containsSub low "next sunday".data then
    Except.ok (nextWeekday now 0 (relTime low).1 (relTime low).2 tz)
  else Except.error "unrecognized relative date expression"

/-- `parseRelativeDate`: natural language expressions.  Lower-cases and
trims the input, converts the reference to the zone, and runs the phrase
switch. -/
def parseRelativeDate (input : String) (ref : GoTime) (tz : Loc) : Except String GoTime :=
  parseRelativeCore (goToLower (goTrimSpace input.data)) (ref.In tz) tz

/-! ## `ParseDateTimeRobust` -/

/-- The guidance-bearing failure message of the final fallthrough. -/
def unparsableMsg (input : String) : String :=
  "unable to parse datetime '" ++ input ++
    "'. Supported formats: RFC3339 (2024-12-01T14:00:00+01:00), ISO 8601 (2024-12-01T14:00:00), Date+Time (2024-12-01 14:00), German (01.12.2024 14:00), natural language (tomorrow at 14:00), or Date only (2024-12-01)"

/-- Interpret civil fields as a wall-clock reading in a location
(`time.ParseInLocation`'s final conversion, i.e. `time.Date` on the parsed
fields). -/
def goDateC (c : Civil) (loc : Loc) : GoTime :=
  goDate c.year c.month c.day c.hour c.minute c.second loc

/-- `ParseDateTimeRobust`: trim; reject empty input; then try the matchers
in order of specificity --- strict RFC3339 (offset-bearing), RFC3339Nano,
the local layouts (`T`-separated with and without seconds and trailing `Z`,
space-separated with and without seconds), date-only (defaulting to 09:00),
the German layouts, the slash format (which can yield the ambiguity
signal), and the relative-date vocabulary; otherwise fail with the guidance
message. -/
def ParseDateTimeRobust (input : String) (referenceTime : GoTime) : ParseResult :=
  let inp := goTrimSpace input.data
  if inp.isEmpty then ParseResult.err "empty datetime string"
  else
    let inpS := String.mk inp
    match parseRFC3339 inp with
    | some t => ParseResult.ok (t.In Loc.berlin)
    | none =>
    match parseRFC3339Nano inp with
    | some t => ParseResult.ok (t.In Loc.berlin)
    | none =>
    match parseISO8601WithTZ inp with
    | some c => ParseResult.ok (goDateC c Loc.berlin)
    | none =>
    match parseISO8601 inp with
    | some c => ParseResult.ok (goDateC c Loc.berlin)
    | none =>
    match parseISO8601Short inp with
    | some c => ParseResult.ok (goDateC c Loc.berlin)
    | none =>
    match parseDateTimeSpace inp with
    | some c => ParseResult.ok (goDateC c Loc.berlin)
    | none =>
    match parseDateTimeSpaceShort inp with
    | some c => ParseResult.ok (goDateC c Loc.berlin)
    | none =>
    match parseDateOnly inp with
    | some ymd =>
      let t0 := goDate ymd.1 ymd.2.1 ymd.2.2 0 0 0 Loc.berlin
      let c0 := civilOf t0
      ParseResult.ok (goDate c0.year c0.month c0.day 9 0 0 Loc.berlin)
    | none =>
    match parseGermanDateTime inp with
    | some c => ParseResult.ok (goDateC c Loc.berlin)
    | none =>
    match parseGermanDate inp with
    | some ymd =>
      let t0 := goDate ymd.1 ymd.2.1 ymd.2.2 0 0 0 Loc.berlin
      let c0 := civilOf t0
      ParseResult.ok (goDate c0.year c0.month c0.day 9 0 0 Loc.berlin)
    | none =>
    match parseSlashFormat inpS Loc.berlin referenceTime with
    | ParseResult.ok t => ParseResult.ok t
    | ParseResult.ambiguous e => ParseResult.ambiguous e
    | ParseResult.err _ =>
    match parseRelativeDate inpS referenceTime Loc.berlin with
    | Except.ok t => ParseResult.ok t
    | Except.error _ => ParseResult.err (unparsableMsg inpS)

/-! ## `ValidateDateTime` -/

/-- Outcome of validation (`nil` error versus a message-bearing error). -/
inductive ValidationResult
  | ok
  | rejected (reason : String)
deriving DecidableEq, Repr

/-- The rejection message for an instant in the past. -/
def pastMsg (t : GoTime) : String :=
  "datetime is in the past: " ++ formatYMDHM t

/-- The rejection message for an instant too far in the future. -/
def futureMsg (t : GoTime) : String :=
  "datetime is too far in the future: " ++ formatYMDHM t ++ " (max 2 years ahead)"

/-- `ValidateDateTime` with the ambient `time.Now()` made explicit: reject
instants before `now - 24h`, reject instants after `now.AddDate(2, 0, 0)`,
accept everything else. -/
def ValidateDateTime (now t : GoTime) : ValidationResult :=
  if t.u < now.u - 24 * 3600 then ValidationResult.rejected (pastMsg t)
  else if (goAddDate now 2 0 0).u < t.u then ValidationResult.rejected (futureMsg t)
  else ValidationResult.ok

/-- The reference instant used by concrete witnesses: Saturday, 2024-11-30,
12:00 Berlin time. -/
def refNov30 : GoTime :=
  goDate 2024 11 30 12 0 0 Loc.berlin

/-! ## Structural lemmas about the time model -/

/-- The civil fields of any instant are in range, and reassemble to its
civil seconds. -/
theorem civilOf_spec (t : GoTime) :
    1 ≤ (civilOf t).month ∧ (civilOf t).month ≤ 12 ∧
    1 ≤ (civilOf t).day ∧ (civilOf t).day ≤ daysInMonth (civilOf t).year (civilOf t).month ∧
    0 ≤ (civilOf t).hour ∧ (civilOf t).hour ≤ 23 ∧
    0 ≤ (civilOf t).minute ∧ (civilOf t).minute ≤ 59 ∧
    0 ≤ (civilOf t).second ∧ (civilOf t).second ≤ 59 ∧
    daysFromCivil (civilOf t).year (civilOf t).month (civilOf t).day * 86400 +
      (civilOf t).hour * 3600 + (civilOf t).minute * 60 + (civilOf t).second =
      civilSec t := by
  obtain ⟨r1, r2, r3, r4, r5⟩ := civilFromDays_spec (civilSec t / 86400)
    (civilFromDays (civilSec t / 86400)).1 (civilFromDays (civilSec t / 86400)).2.1
    (civilFromDays (civilSec t / 86400)).2.2 rfl
  simp only [civilOf]
  refine ⟨r1, r2, r3, r4, ?_, ?_, ?_, ?_, ?_, ?_, ?_⟩ <;> omega

/-- For time fields already in range, `goDate` is plain assembly of the day
number and the time of day (the normalization steps do nothing). -/
theorem goDate_u_eq (y mo d h mi s : Int) (loc : Loc)
    (hmo : 1 ≤ mo ∧ mo ≤ 12) :
    goDate y mo d h mi s loc =
      { u := wallToU loc (daysFromCivil y mo d * 86400 + h * 3600 + mi * 60 + s),
        loc := loc } := by
  have hadd := daysFromCivil_add_day y mo 1 (d - 1)
  have e0 : (1 : Int) + (d - 1) = d := by ring
  rw [e0] at hadd
  simp only [goDate]
  have ea : y + (mo - 1) / 12 = y := by omega
  have eb : (mo - 1) % 12 + 1 = mo := by omega
  rw [ea, eb, GoTime.mk.injEq]
  refine ⟨?_, rfl⟩
  congr 1
  omega

set_option maxHeartbeats 800000 in
/-- `now.AddDate(2, 0, 0)` is strictly later than `now - 24h` (with close to
two years to spare); this keeps the validator's two rejection branches
disjoint. -/
theorem goAddDate_two_lower (now : GoTime) :
    now.u - 86400 < (goAddDate now 2 0 0).u := by
  obtain ⟨r1, r2, r3, r4, r5, r6, r7, r8, r9, r10, hrec⟩ := civilOf_spec now
  have h2y := daysFromCivil_two_years (civilOf now).year (civilOf now).month
  have hd1 := daysFromCivil_add_day (civilOf now).year (civilOf now).month 1
    ((civilOf now).day - 1)
  have hd2 := daysFromCivil_add_day ((civilOf now).year + 2) (civilOf now).month 1
    ((civilOf now).day - 1)
  have e0 : (1 : Int) + ((civilOf now).day - 1) = (civilOf now).day := by ring
  rw [e0] at hd1 hd2
  simp only [goAddDate, add_zero]
  rw [goDate_u_eq _ _ _ _ _ _ _ (by omega)]
  dsimp only
  have hcs : civilSec now = now.u + 60 * locUtcOffMin now.loc now.u := rfl
  rcases hloc : now.loc with _ | _ | o
  · rw [hloc] at hcs
    have hb := wallToU_berlin_bounds (daysFromCivil ((civilOf now).year + 2)
      (civilOf now).month (civilOf now).day * 86400 + (civilOf now).hour * 3600 +
      (civilOf now).minute * 60 + (civilOf now).second)
    rcases berlinUtcOffMin_mem now.u with hoff | hoff <;>
      simp only [locUtcOffMin, hoff] at hcs <;> omega
  · rw [hloc] at hcs
    simp only [locUtcOffMin] at hcs
    simp only [wallToU]
    omega
  · rw [hloc] at hcs
    simp only [locUtcOffMin] at hcs
    simp only [wallToU]
    omega

/-- The two rejection messages can never coincide (their fixed parts have
different lengths). -/
theorem pastMsg_ne_futureMsg (t : GoTime) : pastMsg t ≠ futureMsg t := by
  intro h
  have h2 := congrArg String.length h
  simp only [pastMsg, futureMsg, String.length_append] at h2
  have e1 : ("datetime is in the past: ").length = 25 := rfl
  have e2 : ("datetime is too far in the future: ").length = 35 := rfl
  have e3 : (" (max 2 years ahead)").length = 20 := rfl
  omega

/-- Claim C2: for every instant `t` and wall-clock `now`, `validate`
rejects with the "datetime is in the past" reason exactly when
`t < now - 24h`, rejects with the "datetime is too far in the future"
reason exactly when `t > now.AddDate(2,0,0)`, accepts exactly otherwise,
and the two rejection reasons never coincide. -/
theorem C2_validation_window (now t : GoTime) :
    (ValidateDateTime now t = ValidationResult.rejected (pastMsg t) ↔
      t.u < now.u - 24 * 3600) ∧
    (ValidateDateTime now t = ValidationResult.rejected (futureMsg t) ↔
      (goAddDate now 2 0 0).u < t.u) ∧
    (ValidateDateTime now t = ValidationResult.ok ↔
      ¬ t.u < now.u - 24 * 3600 ∧ ¬ (goAddDate now 2 0 0).u < t.u) ∧
    pastMsg t ≠ futureMsg t := by
  have hmsg := pastMsg_ne_futureMsg t
  have hlow := goAddDate_two_lower now
  unfold ValidateDateTime
  split_ifs with h1 h2
  · refine ⟨by (simp [h1]; omega), ?_, by (simp [h1]; omega), hmsg⟩
    simp only [ValidationResult.rejected.injEq]
    constructor
    · intro he; exact absurd he hmsg
    · intro hf; omega
  · refine ⟨?_, by simp [h2], by simp [h2], hmsg⟩
    simp only [ValidationResult.rejected.injEq]
    constructor
    · intro he; exact absurd he.symm hmsg
    · intro hp; exact absurd hp h1
  · refine ⟨by (simp [h1]; omega), by simp [h2], by (simp [h1, h2]; omega), hmsg⟩

/-- Witness for C2, mirroring the spec's validation examples against the
reference instant Saturday 2024-11-30 12:00 Berlin: an instant 30 days in
the past is rejected as past, one 10 hours in the past is accepted, one 3
years ahead is rejected as too far, one 1 year ahead is accepted. -/
theorem C2_validation_window_witness :
    ValidateDateTime refNov30 (goDate 2024 10 31 12 0 0 Loc.berlin) =
      ValidationResult.rejected (pastMsg (goDate 2024 10 31 12 0 0 Loc.berlin)) ∧
    ValidateDateTime refNov30 (goDate 2024 11 30 2 0 0 Loc.berlin) =
      ValidationResult.ok ∧
    ValidateDateTime refNov30 (goDate 2027 11 30 12 0 0 Loc.berlin) =
      ValidationResult.rejected (futureMsg (goDate 2027 11 30 12 0 0 Loc.berlin)) ∧
    ValidateDateTime refNov30 (goDate 2025 11 30 12 0 0 Loc.berlin) =
      ValidationResult.ok :=
  ⟨(C2_validation_window refNov30 _).1.mpr (by decide),
   (C2_validation_window refNov30 _).2.2.1.mpr (by decide),
   (C2_validation_window refNov30 _).2.1.mpr (by decide),
   (C2_validation_window refNov30 _).2.2.1.mpr (by decide)⟩

/-! ## Claims about the slash-format sub-routine -/

/-- Every month has at least 28 days. -/
theorem daysInMonth_ge (y m : Int) : 28 ≤ daysInMonth y m := by
  unfold daysInMonth
  split_ifs <;> omega

/-- No month has more than 31 days. -/
theorem daysInMonth_le (y m : Int) : daysInMonth y m ≤ 31 := by
  unfold daysInMonth
  split_ifs <;> omega

/-- A genuinely existing calendar date: month in range and day within the
month's length. -/
def isValidCivilDate (y mo d : Int) : Prop :=
  1 ≤ mo ∧ mo ≤ 12 ∧ 1 ≤ d ∧ d ≤ daysInMonth y mo

instance (y mo d : Int) : Decidable (isValidCivilDate y mo d) := by
  unfold isValidCivilDate
  infer_instance

/-- Claim C1: on every slash-format input whose two numbers are both valid
months (hence both valid days) and differ, with a valid (or absent) time
component, the sub-routine returns the ambiguity signal with exactly two
options in fixed order: key `A` reading the numbers as month/day, key `B`
reading them as day/month, each with its own resolved instant; a missing
time component defaults to 09:00.  In particular `06/12/2024` produces
exactly the two options June 12 and December 6, 2024, both at 09:00
Berlin time. -/
theorem C1_slash_ambiguity_two_options :
    (∀ (input : String) (tz : Loc) (ref : GoTime) (first second : Int)
        (oy : Option Int) (ot : Option (Int × Int)),
      slashMatch input.data = some (first, second, oy, ot) →
      ¬ (slashHour ot < 0 ∨ slashHour ot > 23 ∨ slashMinute ot < 0 ∨
          slashMinute ot > 59) →
      1 ≤ first → first ≤ 12 → 1 ≤ second → second ≤ 12 → first ≠ second →
      parseSlashFormat input tz ref =
        ParseResult.ambiguous
          { OriginalInput := input,
            Options :=
              [mkSlashOption "A" "MM/DD format: "
                 (goDate (slashYear oy ref) first second (slashHour ot)
                   (slashMinute ot) 0 tz),
               mkSlashOption "B" "DD/MM format: "
                 (goDate (slashYear oy ref) second first (slashHour ot)
                   (slashMinute ot) 0 tz)] }) ∧
    slashHour none = 9 ∧ slashMinute none = 0 ∧
    ParseDateTimeRobust "06/12/2024" refNov30 =
      ParseResult.ambiguous
        { OriginalInput := "06/12/2024",
          Options :=
            [mkSlashOption "A" "MM/DD format: " (goDate 2024 6 12 9 0 0 Loc.berlin),
             mkSlashOption "B" "DD/MM format: " (goDate 2024 12 6 9 0 0 Loc.berlin)] } ∧
    civilOf (goDate 2024 6 12 9 0 0 Loc.berlin) =
      { year := 2024, month := 6, day := 12, hour := 9, minute := 0, second := 0 } ∧
    civilOf (goDate 2024 12 6 9 0 0 Loc.berlin) =
      { year := 2024, month := 12, day := 6, hour := 9, minute := 0, second := 0 } := by
  refine ⟨?_, rfl, rfl, by decide, by decide, by decide⟩
  intro input tz ref first second oy ot hmatch htime ha hb hc hd hne
  unfold parseSlashFormat
  rw [hmatch]
  dsimp only
  rw [if_neg htime,
    if_pos (show (1 ≤ first ∧ first ≤ 12) ∧ (1 ≤ second ∧ second ≤ 12) ∧
      (1 ≤ first ∧ first ≤ 31) ∧ (1 ≤ second ∧ second ≤ 31) ∧ first ≠ second from
      ⟨⟨ha, hb⟩, ⟨hc, hd⟩, ⟨by omega, by omega⟩, ⟨by omega, by omega⟩, hne⟩)]

/-- Witness for the universal part of C1: `06/12/2024` through the
sub-routine itself. -/
theorem C1_slash_ambiguity_two_options_witness :
    parseSlashFormat "06/12/2024" Loc.berlin refNov30 =
      ParseResult.ambiguous
        { OriginalInput := "06/12/2024",
          Options :=
            [mkSlashOption "A" "MM/DD format: " (goDate 2024 6 12 9 0 0 Loc.berlin),
             mkSlashOption "B" "DD/MM format: " (goDate 2024 12 6 9 0 0 Loc.berlin)] } :=
  C1_slash_ambiguity_two_options.1 "06/12/2024" Loc.berlin refNov30 6 12
    (some 2024) none (by decide) (by decide) (by decide) (by decide) (by decide)
    (by decide) (by decide)

/-- Claim C5: whenever the resolver returns an ambiguity, both options were
constructed from individually valid calendar interpretations (both numbers
are at most 12, so each is a valid day of any month), and the option list
is exactly the two interpretations. -/
theorem C5_ambiguous_options_both_valid :
    ∀ (input : String) (tz : Loc) (ref : GoTime) (first second : Int)
      (oy : Option Int) (ot : Option (Int × Int)) (e : AmbiguousDateError),
      slashMatch input.data = some (first, second, oy, ot) →
      parseSlashFormat input tz ref = ParseResult.ambiguous e →
      isValidCivilDate (slashYear oy ref) first second ∧
      isValidCivilDate (slashYear oy ref) second first ∧
      0 ≤ slashHour ot ∧ slashHour ot ≤ 23 ∧
      0 ≤ slashMinute ot ∧ slashMinute ot ≤ 59 ∧
      e.Options =
        [mkSlashOption "A" "MM/DD format: "
           (goDate (slashYear oy ref) first second (slashHour ot) (slashMinute ot) 0 tz),
         mkSlashOption "B" "DD/MM format: "
           (goDate (slashYear oy ref) second first (slashHour ot) (slashMinute ot) 0 tz)] := by
  intro input tz ref first second oy ot e hmatch he
  unfold parseSlashFormat at he
  rw [hmatch] at he
  dsimp only at he
  by_cases ht : slashHour ot < 0 ∨ slashHour ot > 23 ∨ slashMinute ot < 0 ∨
      slashMinute ot > 59
  · rw [if_pos ht] at he
    exact absurd he (by simp)
  · rw [if_neg ht] at he
    by_cases hc : (1 ≤ first ∧ first ≤ 12) ∧ (1 ≤ second ∧ second ≤ 12) ∧
        (1 ≤ first ∧ first ≤ 31) ∧ (1 ≤ second ∧ second ≤ 31) ∧ first ≠ second
    · rw [if_pos hc] at he
      simp only [ParseResult.ambiguous.injEq] at he
      have g1 := daysInMonth_ge (slashYear oy ref) first
      have g2 := daysInMonth_ge (slashYear oy ref) second
      obtain ⟨⟨c1, c2⟩, ⟨c3, c4⟩, -, -, -⟩ := hc
      exact ⟨⟨c1, c2, by omega, by omega⟩, ⟨c3, c4, by omega, by omega⟩,
        by omega, by omega, by omega, by omega, by rw [← he]⟩
    · rw [if_neg hc] at he
      by_cases hd1 : (1 ≤ second ∧ second ≤ 12) ∧ (1 ≤ first ∧ first ≤ 31)
      · rw [if_pos hd1] at he
        exact absurd he (by simp)
      · rw [if_neg hd1] at he
        by_cases hd2 : (1 ≤ first ∧ first ≤ 12) ∧ (1 ≤ second ∧ second ≤ 31)
        · rw [if_pos hd2] at he
          exact absurd he (by simp)
        · rw [if_neg hd2] at he
          exact absurd he (by simp)

/-- Witness for C5 at `06/12/2024`. -/
theorem C5_ambiguous_options_both_valid_witness :
    isValidCivilDate 2024 6 12 ∧ isValidCivilDate 2024 12 6 := by
  have h := C5_ambiguous_options_both_valid "06/12/2024" Loc.berlin refNov30 6 12
    (some 2024) none
    { OriginalInput := "06/12/2024",
      Options :=
        [mkSlashOption "A" "MM/DD format: " (goDate 2024 6 12 9 0 0 Loc.berlin),
         mkSlashOption "B" "DD/MM format: " (goDate 2024 12 6 9 0 0 Loc.berlin)] }
    (by decide) (by decide)
  exact ⟨h.1, h.2.1⟩

/-- Claim C6: when only the day/month (European) reading is valid --- the
second number is a valid month and the first a valid day, but not the other
way around --- the sub-routine resolves day-first with no ambiguity signal;
`25/12/2024` resolves to December 25, 2024 at 09:00. -/
theorem C6_european_reading_preferred :
    (∀ (input : String) (tz : Loc) (ref : GoTime) (first second : Int)
        (oy : Option Int) (ot : Option (Int × Int)),
      slashMatch input.data = some (first, second, oy, ot) →
      ¬ (slashHour ot < 0 ∨ slashHour ot > 23 ∨ slashMinute ot < 0 ∨
          slashMinute ot > 59) →
      (1 ≤ second ∧ second ≤ 12) → (1 ≤ first ∧ first ≤ 31) →
      ¬ ((1 ≤ first ∧ first ≤ 12) ∧ (1 ≤ second ∧ second ≤ 31)) →
      parseSlashFormat input tz ref =
        ParseResult.ok
          (goDate (slashYear oy ref) second first (slashHour ot) (slashMinute ot) 0 tz)) ∧
    ParseDateTimeRobust "25/12/2024" refNov30 =
      ParseResult.ok (goDate 2024 12 25 9 0 0 Loc.berlin) ∧
    civilOf (goDate 2024 12 25 9 0 0 Loc.berlin) =
      { year := 2024, month := 12, day := 25, hour := 9, minute := 0, second := 0 } := by
  refine ⟨?_, by decide, by decide⟩
  intro input tz ref first second oy ot hmatch htime hsm hfd hnot
  unfold parseSlashFormat
  rw [hmatch]
  dsimp only
  rw [if_neg htime,
    if_neg (show ¬ ((1 ≤ first ∧ first ≤ 12) ∧ (1 ≤ second ∧ second ≤ 12) ∧
      (1 ≤ first ∧ first ≤ 31) ∧ (1 ≤ second ∧ second ≤ 31) ∧ first ≠ second) from by
        intro hx
        exact hnot ⟨hx.1, by omega⟩),
    if_pos (show (1 ≤ second ∧ second ≤ 12) ∧ (1 ≤ first ∧ first ≤ 31) from ⟨hsm, hfd⟩)]

/-- Witness for the universal part of C6: `25/12/2024` through the
sub-routine itself. -/
theorem C6_european_reading_preferred_witness :
    parseSlashFormat "25/12/2024" Loc.berlin refNov30 =
      ParseResult.ok (goDate 2024 12 25 9 0 0 Loc.berlin) :=
  C6_european_reading_preferred.1 "25/12/2024" Loc.berlin refNov30 25 12
    (some 2024) none (by decide) (by decide) (by decide) (by decide) (by decide)

/-- Claim C7: when the two numbers are equal and both readings are valid
(the shared value is a valid month), the two readings coincide and the
sub-routine resolves without an ambiguity signal; `07/07/2024` resolves to
July 7, 2024 at 09:00 as a single instant. -/
theorem C7_equal_numbers_unambiguous :
    (∀ (input : String) (tz : Loc) (ref : GoTime) (first second : Int)
        (oy : Option Int) (ot : Option (Int × Int)),
      slashMatch input.data = some (first, second, oy, ot) →
      ¬ (slashHour ot < 0 ∨ slashHour ot > 23 ∨ slashMinute ot < 0 ∨
          slashMinute ot > 59) →
      first = second → 1 ≤ first → first ≤ 12 →
      parseSlashFormat input tz ref =
        ParseResult.ok
          (goDate (slashYear oy ref) second first (slashHour ot) (slashMinute ot) 0 tz)) ∧
    ParseDateTimeRobust "07/07/2024" refNov30 =
      ParseResult.ok (goDate 2024 7 7 9 0 0 Loc.berlin) ∧
    civilOf (goDate 2024 7 7 9 0 0 Loc.berlin) =
      { year := 2024, month := 7, day := 7, hour := 9, minute := 0, second := 0 } := by
  refine ⟨?_, by decide, by decide⟩
  intro input tz ref first second oy ot hmatch htime heq h1 h2
  unfold parseSlashFormat
  rw [hmatch]
  dsimp only
  rw [if_neg htime,
    if_neg (show ¬ ((1 ≤ first ∧ first ≤ 12) ∧ (1 ≤ second ∧ second ≤ 12) ∧
      (1 ≤ first ∧ first ≤ 31) ∧ (1 ≤ second ∧ second ≤ 31) ∧ first ≠ second) from by
        intro hx
        exact hx.2.2.2.2 heq),
    if_pos (show (1 ≤ second ∧ second ≤ 12) ∧ (1 ≤ first ∧ first ≤ 31) from
      ⟨by omega, by omega⟩)]

/-- Witness for the universal part of C7: `07/07/2024` through the
sub-routine itself. -/
theorem C7_equal_numbers_unambiguous_witness :
    parseSlashFormat "07/07/2024" Loc.berlin refNov30 =
      ParseResult.ok (goDate 2024 7 7 9 0 0 Loc.berlin) :=
  C7_equal_numbers_unambiguous.1 "07/07/2024" Loc.berlin refNov30 7 7
    (some 2024) none (by decide) (by decide) (by decide) (by decide) (by decide)

/-- Counterexample to claim C3 as stated: `31/04/2024` names a day that
does not exist in April, yet the resolver does not return a parse failure:
it resolves the input successfully, and the constructed instant normalizes
forward to May 1, 2024 at 09:00. -/
theorem C3_counterexample_day31_april :
    ParseDateTimeRobust "31/04/2024" refNov30 =
      ParseResult.ok (goDate 2024 4 31 9 0 0 Loc.berlin) ∧
    civilOf (goDate 2024 4 31 9 0 0 Loc.berlin) =
      { year := 2024, month := 5, day := 1, hour := 9, minute := 0, second := 0 } ∧
    ¬ isValidCivilDate 2024 4 31 := by
  refine ⟨by decide, by decide, by decide⟩

/-- `true` exactly on the parse-failure outcome. -/
def ParseResult.isFailure : ParseResult → Bool
  | ParseResult.err _ => true
  | _ => false

set_option maxRecDepth 10000 in
/-- Claim C3 as amended: a slash-matched input on which neither reading has
a month in 1..12 together with a day in 1..31 is a parse failure (whatever
the time component); in particular the whole resolver rejects
`99/99/2024`.  (Days in 1..31 that do not exist in the named month are not
rejected but normalized forward --- see the counterexample theorem.) -/
theorem C3_amended_invalid_components_fail :
    (∀ (input : String) (tz : Loc) (ref : GoTime) (first second : Int)
        (oy : Option Int) (ot : Option (Int × Int)),
      slashMatch input.data = some (first, second, oy, ot) →
      ¬ ((1 ≤ second ∧ second ≤ 12) ∧ (1 ≤ first ∧ first ≤ 31)) →
      ¬ ((1 ≤ first ∧ first ≤ 12) ∧ (1 ≤ second ∧ second ≤ 31)) →
      (parseSlashFormat input tz ref).isFailure = true) ∧
    ParseDateTimeRobust "99/99/2024" refNov30 =
      ParseResult.err (unparsableMsg "99/99/2024") := by
  constructor
  · intro input tz ref first second oy ot hmatch hn1 hn2
    unfold parseSlashFormat
    rw [hmatch]
    dsimp only
    by_cases ht : slashHour ot < 0 ∨ slashHour ot > 23 ∨ slashMinute ot < 0 ∨
        slashMinute ot > 59
    · rw [if_pos ht]; rfl
    · rw [if_neg ht,
        if_neg (show ¬ ((1 ≤ first ∧ first ≤ 12) ∧ (1 ≤ second ∧ second ≤ 12) ∧
          (1 ≤ first ∧ first ≤ 31) ∧ (1 ≤ second ∧ second ≤ 31) ∧ first ≠ second) from by
            intro hx
            exact hn2 ⟨hx.1, hx.2.2.2.1⟩),
        if_neg hn1, if_neg hn2]
      rfl
  · decide

/-- Witness for the universal part of the amended C3: `99/99/2024` through
the sub-routine itself. -/
theorem C3_amended_invalid_components_fail_witness :
    (parseSlashFormat "99/99/2024" Loc.berlin refNov30).isFailure = true :=
  C3_amended_invalid_components_fail.1 "99/99/2024" Loc.berlin refNov30 99 99
    (some 2024) none (by decide) (by decide) (by decide)

/-! ## Claim C4: every success carries the Berlin zone -/

/-- A successful slash resolution carries the zone it was given. -/
theorem parseSlashFormat_ok_loc (input : String) (tz : Loc) (ref : GoTime)
    (t : GoTime) (h : parseSlashFormat input tz ref = ParseResult.ok t) :
    t.loc = tz := by
  unfold parseSlashFormat at h
  split at h
  · simp at h
  · dsimp only at h
    split_ifs at h <;>
      first
        | (simp at h; done)
        | (simp only [ParseResult.ok.injEq] at h; subst h; rfl)

/-- An ambiguous slash resolution carries the zone it was given in both
options. -/
theorem parseSlashFormat_ambiguous_loc (input : String) (tz : Loc) (ref : GoTime)
    (e : AmbiguousDateError) (o : DateOption)
    (h : parseSlashFormat input tz ref = ParseResult.ambiguous e)
    (ho : o ∈ e.Options) : o.DateTime.loc = tz := by
  unfold parseSlashFormat at h
  split at h
  · simp at h
  · dsimp only at h
    split_ifs at h <;>
      first
        | (simp at h; done)
        | (simp only [ParseResult.ambiguous.injEq] at h
           subst h
           simp only [List.mem_cons, List.not_mem_nil, or_false] at ho
           rcases ho with rfl | rfl <;> rfl)

/-- A successful relative-date resolution carries the zone it was given. -/
theorem parseRelativeCore_ok_loc (low : List Char) (now : GoTime) (tz : Loc)
    (t : GoTime) (h : parseRelativeCore low now tz = Except.ok t) :
    t.loc = tz := by
  unfold parseRelativeCore at h
  by_cases c1 : containsSub low "today".data = true
  · rw [if_pos c1] at h; cases h <;> rfl
  · rw [if_neg c1] at h
    by_cases c2 : containsSub low "tomorrow".data = true
    · rw [if_pos c2] at h; cases h <;> rfl
    · rw [if_neg c2] at h
      by_cases c3 : containsSub low "next week".data = true
      · rw [if_pos c3] at h; cases h <;> rfl
      · rw [if_neg c3] at h
        by_cases c4 : (daysSearch low).isSome = true
        · rw [if_pos c4] at h; cases h <;> rfl
        · rw [if_neg c4] at h
          by_cases c5 : containsSub low "next monday".data = true
          · rw [if_pos c5] at h; cases h <;> rfl
          · rw [if_neg c5] at h
            by_cases c6 : containsSub low "next tuesday".data = true
            · rw [if_pos c6] at h; cases h <;> rfl
            · rw [if_neg c6] at h
              by_cases c7 : containsSub low "next wednesday".data = true
              · rw [if_pos c7] at h; cases h <;> rfl
              · rw [if_neg c7] at h
                by_cases c8 : containsSub low "next thursday".data = true
                · rw [if_pos c8] at h; cases h <;> rfl
                · rw [if_neg c8] at h
                  by_cases c9 : containsSub low "next friday".data = true
                  · rw [if_pos c9] at h; cases h <;> rfl
                  · rw [if_neg c9] at h
                    by_cases c10 : containsSub low "next saturday".data = true
                    · rw [if_pos c10] at h; cases h <;> rfl
                    · rw [if_neg c10] at h
                      by_cases c11 : containsSub low "next sunday".data = true
                      · rw [if_pos c11] at h; cases h <;> rfl
                      · rw [if_neg c11] at h
                        cases h

/-- A successful relative-date resolution carries the zone it was given. -/
theorem parseRelativeDate_ok_loc (input : String) (ref : GoTime) (tz : Loc)
    (t : GoTime) (h : parseRelativeDate input ref tz = Except.ok t) :
    t.loc = tz :=
  parseRelativeCore_ok_loc _ _ _ _ h

/-- Claim C4: whenever the resolver succeeds, the returned instant carries
the fixed target zone (Europe/Berlin); the same holds for the instant
inside every option of an ambiguity result.  No success path returns a
naive or differently-zoned instant. -/
theorem C4_success_always_berlin :
    (∀ (input : String) (ref : GoTime) (t : GoTime),
      ParseDateTimeRobust input ref = ParseResult.ok t → t.loc = Loc.berlin) ∧
    (∀ (input : String) (ref : GoTime) (e : AmbiguousDateError) (o : DateOption),
      ParseDateTimeRobust input ref = ParseResult.ambiguous e →
      o ∈ e.Options → o.DateTime.loc = Loc.berlin) := by
  constructor
  · intro input ref t h
    unfold ParseDateTimeRobust at h
    dsimp only at h
    repeat' split at h
    all_goals
      first
        | (simp at h; done)
        | (simp only [ParseResult.ok.injEq] at h
           subst h
           first
             | rfl
             | (exact parseSlashFormat_ok_loc _ _ _ _ (by assumption))
             | (exact parseRelativeDate_ok_loc _ _ _ _ (by assumption)))
  · intro input ref e o h ho
    unfold ParseDateTimeRobust at h
    dsimp only at h
    repeat' split at h
    all_goals
      first
        | (simp at h; done)
        | (simp only [ParseResult.ambiguous.injEq] at h
           subst h
           exact parseSlashFormat_ambiguous_loc _ _ _ _ _ (by assumption) ho)

/-- Witness for C4: a date-only resolution and an ambiguous resolution,
checked to carry the Berlin zone. -/
theorem C4_success_always_berlin_witness :
    (goDate 2024 12 1 9 0 0 Loc.berlin).loc = Loc.berlin ∧
    (goDate 2024 6 12 9 0 0 Loc.berlin).loc = Loc.berlin :=
  ⟨C4_success_always_berlin.1 "2024-12-01" refNov30
      (goDate 2024 12 1 9 0 0 Loc.berlin) (by decide),
   C4_success_always_berlin.2 "06/12/2024" refNov30
      { OriginalInput := "06/12/2024",
        Options :=
          [mkSlashOption "A" "MM/DD format: " (goDate 2024 6 12 9 0 0 Loc.berlin),
           mkSlashOption "B" "DD/MM format: " (goDate 2024 12 6 9 0 0 Loc.berlin)] }
      (mkSlashOption "A" "MM/DD format: " (goDate 2024 6 12 9 0 0 Loc.berlin))
      (by decide) (by simp)⟩

/-! ## Claim C8: `nextWeekday` is the next occurrence strictly after today -/

/-- Go weekday numbers are in 0..6. -/
theorem goWeekday_range (t : GoTime) : 0 ≤ goWeekday t ∧ goWeekday t ≤ 6 := by
  unfold goWeekday weekdayOfDays
  omega

/-- Claim C8: for every reference instant and target weekday, the day
offset computed by `nextWeekday` is in 1..7 (so `next Monday` said on a
Monday means seven days out, never zero), the function constructs exactly
the reference civil date moved by that offset, the moved day number is the
reference day number plus the offset, and the moved day's weekday is the
target.  Concretely, `next monday` with reference Saturday 2024-11-30
resolves to Monday 2024-12-02 at 09:00. -/
theorem C8_next_weekday_strictly_after (ref : GoTime) (targetDay hour minute : Int)
    (tz : Loc) (ht0 : 0 ≤ targetDay) (ht6 : targetDay ≤ 6) :
    (1 ≤ daysUntilNext (goWeekday ref) targetDay ∧
     daysUntilNext (goWeekday ref) targetDay ≤ 7 ∧
     nextWeekday ref targetDay hour minute tz =
       goDate (civilOf ref).year (civilOf ref).month
         ((civilOf ref).day + daysUntilNext (goWeekday ref) targetDay)
         hour minute 0 tz ∧
     daysFromCivil (civilOf ref).year (civilOf ref).month
         ((civilOf ref).day + daysUntilNext (goWeekday ref) targetDay) =
       civilDays ref + daysUntilNext (goWeekday ref) targetDay ∧
     weekdayOfDays (civilDays ref + daysUntilNext (goWeekday ref) targetDay) =
       targetDay) ∧
    ParseDateTimeRobust "next monday" refNov30 =
      ParseResult.ok (goDate 2024 11 32 9 0 0 Loc.berlin) ∧
    civilOf (goDate 2024 11 32 9 0 0 Loc.berlin) =
      { year := 2024, month := 12, day := 2, hour := 9, minute := 0, second := 0 } ∧
    goWeekday (goDate 2024 11 32 9 0 0 Loc.berlin) = 1 ∧
    goWeekday refNov30 = 6 := by
  refine ⟨⟨?_, ?_, rfl, ?_, ?_⟩, by decide, by decide, by decide, by decide⟩
  · have := goWeekday_range ref
    unfold daysUntilNext
    split_ifs <;> omega
  · have := goWeekday_range ref
    unfold daysUntilNext
    split_ifs <;> omega
  · have hciv : civilFromDays (civilDays ref) =
        ((civilOf ref).year, (civilOf ref).month, (civilOf ref).day) := rfl
    obtain ⟨-, -, -, -, hback⟩ := civilFromDays_spec (civilDays ref)
      (civilOf ref).year (civilOf ref).month (civilOf ref).day hciv
    rw [daysFromCivil_add_day, hback]
  · unfold goWeekday weekdayOfDays at *
    unfold daysUntilNext
    split_ifs <;> omega

/-- Witness for C8: `next monday` asked on Saturday 2024-11-30: the offset
is 2 days, within 1..7, and lands on a Monday. -/
theorem C8_next_weekday_strictly_after_witness :
    1 ≤ daysUntilNext (goWeekday refNov30) 1 ∧
    daysUntilNext (goWeekday refNov30) 1 ≤ 7 ∧
    weekdayOfDays (civilDays refNov30 + daysUntilNext (goWeekday refNov30) 1) = 1 ∧
    daysUntilNext (goWeekday refNov30) 1 = 2 :=
  ⟨(C8_next_weekday_strictly_after refNov30 1 9 0 Loc.berlin (by decide)
      (by decide)).1.1,
   (C8_next_weekday_strictly_after refNov30 1 9 0 Loc.berlin (by decide)
      (by decide)).1.2.1,
   (C8_next_weekday_strictly_after refNov30 1 9 0 Loc.berlin (by decide)
      (by decide)).1.2.2.2.2,
   by decide⟩

/-! ## Claim C10: the relative sub-parser does not range-check `HH:MM` -/

/-- Claim C10: the relative/natural-language sub-parser applies no range
check to the `HH:MM` it extracts: whatever numbers the time regex found,
a `tomorrow` input resolves successfully with those raw numbers handed to
the date constructor.  Concretely, `tomorrow at 99:99` (reference Saturday
2024-11-30 Berlin) resolves successfully, and the excess hours and minutes
normalize forward by calendar arithmetic to 2024-12-05 04:39. -/
theorem C10_relative_time_not_rangechecked :
    (∀ (low : List Char) (now : GoTime) (tz : Loc) (hh mm : Int),
      timeSearch low = some (hh, mm) →
      containsSub low "tomorrow".data = true →
      containsSub low "today".data = false →
      parseRelativeCore low now tz =
        Except.ok (goDate (civilOf now).year (civilOf now).month
          ((civilOf now).day + 1) hh mm 0 tz)) ∧
    ParseDateTimeRobust "tomorrow at 99:99" refNov30 =
      ParseResult.ok (goDate 2024 11 31 99 99 0 Loc.berlin) ∧
    civilOf (goDate 2024 11 31 99 99 0 Loc.berlin) =
      { year := 2024, month := 12, day := 5, hour := 4, minute := 39, second := 0 } := by
  refine ⟨?_, by decide, by decide⟩
  intro low now tz hh mm hts htom htod
  unfold parseRelativeCore
  rw [if_neg (show ¬ containsSub low "today".data = true from by rw [htod]; simp),
    if_pos htom]
  have hrel : relTime low = (hh, mm) := by
    unfold relTime
    rw [hts]
  rw [hrel]

/-- Witness for the universal part of C10: `tomorrow at 99:99` through the
sub-parser core itself. -/
theorem C10_relative_time_not_rangechecked_witness :
    parseRelativeCore "tomorrow at 99:99".data refNov30 Loc.berlin =
      Except.ok (goDate 2024 11 31 99 99 0 Loc.berlin) := by
  have h := C10_relative_time_not_rangechecked.1 "tomorrow at 99:99".data
    (refNov30.In Loc.berlin) Loc.berlin 99 99 (by decide) (by decide) (by decide)
  exact h.trans (by rfl)

/-! ## Claim C9: format / re-parse round trip -/

/-- `digitChar` of a digit value is a digit character with that value. -/
theorem digitChar_spec (n : Int) (h0 : 0 ≤ n) (h9 : n ≤ 9) :
    (digitChar n).isDigit = true ∧ digitVal (digitChar n) = n := by
  interval_cases n <;> exact ⟨rfl, rfl⟩

/-- Fixed-width parsing inverts two-digit rendering. -/
theorem parse2d_pad2 (n : Int) (r : List Char) (h0 : 0 ≤ n) (h99 : n ≤ 99) :
    parse2d ((pad2 n).data ++ r) = some (n, r) := by
  obtain ⟨d1, v1⟩ := digitChar_spec (n / 10) (by omega) (by omega)
  obtain ⟨d2, v2⟩ := digitChar_spec (n % 10) (by omega) (by omega)
  show parse2d (digitChar (n / 10) :: digitChar (n % 10) :: r) = some (n, r)
  simp only [parse2d]
  rw [if_pos ⟨d1, d2⟩, v1, v2]
  simp only [Option.some.injEq, Prod.mk.injEq]
  exact ⟨by omega, trivial⟩

/-- Fixed-width parsing inverts four-digit rendering. -/
theorem parse4d_pad4 (n : Int) (r : List Char) (h0 : 0 ≤ n) (h : n ≤ 9999) :
    parse4d ((pad4 n).data ++ r) = some (n, r) := by
  obtain ⟨d1, v1⟩ := digitChar_spec (n / 1000) (by omega) (by omega)
  obtain ⟨d2, v2⟩ := digitChar_spec (n / 100 % 10) (by omega) (by omega)
  obtain ⟨d3, v3⟩ := digitChar_spec (n / 10 % 10) (by omega) (by omega)
  obtain ⟨d4, v4⟩ := digitChar_spec (n % 10) (by omega) (by omega)
  show parse4d (digitChar (n / 1000) :: digitChar (n / 100 % 10) ::
    digitChar (n / 10 % 10) :: digitChar (n % 10) :: r) = some (n, r)
  simp only [parse4d]
  rw [if_pos ⟨d1, d2, d3, d4⟩, v1, v2, v3, v4]
  simp only [Option.some.injEq, Prod.mk.injEq]
  exact ⟨by omega, trivial⟩

set_option maxHeartbeats 1600000 in
/-- Claim C9: formatting a resolved instant with the RFC3339 rendering used
for the machine-readable option dates and re-parsing that exact string with
the RFC3339 matcher recovers the instant exactly (hence to minute
precision): the parse succeeds, returns the same absolute instant in the
parsed fixed-offset zone, and converting it into the Berlin zone gives back
the original value.  (The year bounds delimit the four-digit year
rendering; every date this scheduler accepts satisfies them.) -/
theorem C9_format_reparse_roundtrip (t : GoTime) (hloc : t.loc = Loc.berlin)
    (hy0 : 0 ≤ (civilOf t).year) (hy9 : (civilOf t).year ≤ 9999) :
    parseRFC3339 (formatRFC3339 t).data =
      some { u := t.u, loc := Loc.fixedOffset (berlinUtcOffMin t.u) } ∧
    GoTime.In { u := t.u, loc := Loc.fixedOffset (berlinUtcOffMin t.u) }
      Loc.berlin = t := by
  obtain ⟨r1, r2, r3, r4, r5, r6, r7, r8, r9, r10, hrec⟩ := civilOf_spec t
  have hdm := daysInMonth_le (civilOf t).year (civilOf t).month
  have hcs : civilSec t = t.u + 60 * berlinUtcOffMin t.u := by
    unfold civilSec
    rw [hloc]
    rfl
  refine ⟨?pg, ?ig⟩
  case ig =>
    cases t with
    | mk u loc =>
      have hl : loc = Loc.berlin := hloc
      rw [hl]
      rfl
  case pg =>
  have hfmt : (formatRFC3339 t).data =
      (pad4 (civilOf t).year).data ++ '-' :: ((pad2 (civilOf t).month).data ++ '-' ::
      ((pad2 (civilOf t).day).data ++ 'T' :: ((pad2 (civilOf t).hour).data ++ ':' ::
      ((pad2 (civilOf t).minute).data ++ ':' :: ((pad2 (civilOf t).second).data ++
      (offsetSuffix (berlinUtcOffMin t.u)).data))))) := by
    simp only [formatRFC3339, hloc, locUtcOffMin, String.data_append]
    rfl
  rw [hfmt]
  unfold parseRFC3339
  rw [parse4d_pad4 _ _ hy0 hy9]
  dsimp only
  rw [if_pos (show ('-' : Char) = '-' from rfl)]
  rw [parse2d_pad2 _ _ (by omega) (by omega)]
  dsimp only
  rw [if_pos (show ('-' : Char) = '-' from rfl)]
  rw [parse2d_pad2 _ _ (by omega) (by omega)]
  dsimp only
  rw [if_pos (show ('T' : Char) = 'T' from rfl)]
  rw [parse2d_pad2 _ _ (by omega) (by omega)]
  dsimp only
  rw [if_pos (show (':' : Char) = ':' from rfl)]
  rw [parse2d_pad2 _ _ (by omega) (by omega)]
  dsimp only
  rw [if_pos (show (':' : Char) = ':' from rfl)]
  rw [parse2d_pad2 _ _ (by omega) (by omega)]
  dsimp only
  rw [if_pos (show fieldsValid (civilOf t).year (civilOf t).month (civilOf t).day
    (civilOf t).hour (civilOf t).minute (civilOf t).second = true from by
      simp only [fieldsValid, decide_eq_true_eq]
      exact ⟨r1, r2, r3, r4, r5, r6, r7, r8, r9, r10⟩)]
  rcases berlinUtcOffMin_mem t.u with hoff | hoff <;> rw [hoff]
  · rw [show dropFracStrict (offsetSuffix 60).data = ['+', '0', '1', ':', '0', '0']
      from rfl]
    rw [show parseOffsetTail ['+', '0', '1', ':', '0', '0'] = some 60 from rfl]
    dsimp only
    rw [if_neg (by omega)]
    simp only [Option.some.injEq, GoTime.mk.injEq]
    exact ⟨by omega, trivial⟩
  · rw [show dropFracStrict (offsetSuffix 120).data = ['+', '0', '2', ':', '0', '0']
      from rfl]
    rw [show parseOffsetTail ['+', '0', '2', ':', '0', '0'] = some 120 from rfl]
    dsimp only
    rw [if_neg (by omega)]
    simp only [Option.some.injEq, GoTime.mk.injEq]
    exact ⟨by omega, trivial⟩

/-- Witness for C9: the ISO string of the June 12 option round-trips to the
same instant. -/
theorem C9_format_reparse_roundtrip_witness :
    parseRFC3339 (formatRFC3339 (goDate 2024 6 12 9 0 0 Loc.berlin)).data =
      some { u := (goDate 2024 6 12 9 0 0 Loc.berlin).u,
             loc := Loc.fixedOffset 120 } ∧
    GoTime.In { u := (goDate 2024 6 12 9 0 0 Loc.berlin).u,
                loc := Loc.fixedOffset 120 } Loc.berlin =
      goDate 2024 6 12 9 0 0 Loc.berlin := by
  have h := C9_format_reparse_roundtrip (goDate 2024 6 12 9 0 0 Loc.berlin)
    (by rfl) (by decide) (by decide)
  have he : berlinUtcOffMin (goDate 2024 6 12 9 0 0 Loc.berlin).u = 120 := by decide
  rw [he] at h
  exact h

-- 2024-06-12 09:00 Berlin is summer time (+02:00): check goDate/civilOf agree